import Mathlib

/-
Verification of the TTI sensor analyzer core (src/core/tti_analyzer.py)
against its natural-language specification.

Shallow embedding conventions:
* Python ints are ℤ (or ℕ for pixel indices), Python floats are ℝ;
  `numpy` means are modelled as exact rationals, with `int()` truncation
  toward zero (`pyTrunc`).
* Python dicts that preserve insertion order (reference-color tables,
  distance tables) are association lists `List (String × _)`.
* File I/O for the calibration store is modelled by an explicit
  `FileContent` value (missing file / malformed JSON / valid JSON value);
  `json.dump`/`json.load` round-tripping of a JSON-serializable dict is
  modelled as storing the `Calibration` value itself.
* Exceptions that are caught at a boundary are modelled with `Except`:
  `determine_status` can raise `ValueError` (max() of an empty sequence)
  or `KeyError` (STATUS_LABELS lookup); `analyze_image` catches every
  exception and returns a structured error result.
* `float('inf')` as the initial minimum of the status fold is modelled by
  `Option ℝ` with `none` for infinity: the first reference always replaces
  it, exactly as every finite Delta E compares below `inf`.
-/

namespace TTI

/-- RGB (or Lab) triple; Python list of 3 ints. -/
abbrev Color := ℤ × ℤ × ℤ

/-- One entry of a reference-color table: the `{'rgb': ..., 'name': ..., 'days': ...}`
dict. `name`/`days` are optional because user calibrations may omit them
(the analyzer reads `name` with `.get('name', status)`). -/
structure RefData where
  rgb : Color
  name : Option String := none
  days : Option String := none
deriving DecidableEq

/-- Insertion-ordered mapping status_key → RefData (a Python dict). -/
abbrev RefColors := List (String × RefData)

/-- The table `TTISensorAnalyzer.DEFAULT_COLORS` (tti_analyzer.py lines 21-26). -/
def DEFAULT_COLORS : RefColors :=
  [ ("fresh",   { rgb := (34, 139, 34),   name := some "Forest Green",  days := some "30-40" })
  , ("good",    { rgb := (144, 238, 144), name := some "Light Green",   days := some "15-30" })
  , ("warning", { rgb := (139, 90, 43),   name := some "Brown",         days := some "5-15" })
  , ("expired", { rgb := (178, 34, 34),   name := some "Firebrick Red", days := some "0" }) ]

/-- One entry of `STATUS_LABELS`. -/
structure LabelData where
  label : String
  days_min : ℤ
  days_max : ℤ
  color : String
deriving DecidableEq

/-- The table `TTISensorAnalyzer.STATUS_LABELS` (tti_analyzer.py lines 29-34). -/
def STATUS_LABELS : List (String × LabelData) :=
  [ ("fresh",   { label := "FRESH",   days_min := 30, days_max := 40, color := "#22c55e" })
  , ("good",    { label := "GOOD",    days_min := 15, days_max := 30, color := "#84cc16" })
  , ("warning", { label := "WARNING", days_min := 5,  days_max := 15, color := "#f59e0b" })
  , ("expired", { label := "EXPIRED", days_min := 0,  days_max := 0,  color := "#ef4444" }) ]

/-- Lookup `self.STATUS_LABELS[key]`: `some` the record, `none` models the KeyError. -/
def lookupLabel (k : String) : Option LabelData :=
  (STATUS_LABELS.find? fun p => p.1 = k).map Prod.snd

/-- A parsed calibration JSON object: the optional `colors` mapping plus the
pass-through metadata keys listed in the spec. -/
structure Calibration where
  colors : Option RefColors := none
  name : Option String := none
  created : Option String := none
  sensor_type : Option String := none
  notes : Option String := none
deriving DecidableEq

/-- What sits at `calibration_path` on disk. -/
inductive FileContent
  | missing
  | malformed
  | valid (c : Calibration)
deriving DecidableEq

/-- The analyzer's mutable state: the file at `calibration_path` and the
in-memory `self.calibration` (`None` or a parsed dict). -/
structure AnalyzerState where
  fileContent : FileContent
  calibration : Option Calibration
deriving DecidableEq

/-- Method `load_calibration` (lines 42-52): missing file → return False, memory
untouched; parse failure → prints, sets `self.calibration = None`, returns
False; success → sets memory, returns True. -/
def load_calibration (st : AnalyzerState) : Bool × AnalyzerState :=
  match st.fileContent with
  | .missing => (false, st)
  | .malformed => (false, { st with calibration := none })
  | .valid c => (true, { st with calibration := some c })

/-- Method `save_calibration` (lines 54-63). `writeOk` models whether the
`open`/`json.dump` succeeds; on success the file now holds `data` and the
in-memory calibration is replaced; on failure it returns False and the
in-memory calibration is untouched. (In the code a `json.dump` failure after a
successful `open('w')` can leave the file truncated; the model keeps the prior
file content on failure, and no theorem below relies on the file's state after
a failed save.) -/
def save_calibration (writeOk : Bool) (data : Calibration) (st : AnalyzerState) :
    Bool × AnalyzerState :=
  if writeOk then (true, { fileContent := .valid data, calibration := some data })
  else (false, st)

/-- Method `has_calibration` (lines 65-67). -/
def has_calibration (cal : Option Calibration) : Bool :=
  cal.isSome

/-- Method `get_reference_colors` (lines 69-73). `if self.calibration and 'colors' in
self.calibration` — a dict holding a `colors` key is nonempty hence truthy, so
the test is equivalent to: a calibration is loaded and has a `colors` key. -/
def get_reference_colors (cal : Option Calibration) : RefColors :=
  match cal with
  | some c =>
    match c.colors with
    | some cols => cols
    | none => DEFAULT_COLORS
  | none => DEFAULT_COLORS

/-- A region dict `{'x': ..., 'y': ..., 'width': ..., 'height': ...}`. -/
structure Region where
  x : ℤ
  y : ℤ
  width : ℤ
  height : ℤ
deriving DecidableEq

/-- A decoded RGB image: `np.array(img)` of shape (height, width, 3),
indexed row-first. -/
structure PyImage where
  height : ℕ
  width : ℕ
  pix : ℕ → ℕ → Color

/-- Python `int()` on a (nonnegative-or-negative) rational mean: truncation
toward zero. -/
def pyTrunc (q : ℚ) : ℤ :=
  if q < 0 then ⌈q⌉ else ⌊q⌋

/-- The pixels of the slice `img_array[y:y2, x:x2]` in row-major order,
for already-clamped bounds (`x`,`y` ≥ 0). Empty when `x ≥ x2` or `y ≥ y2`. -/
def regionPixels (img : PyImage) (x y x2 y2 : ℤ) : List Color :=
  ((List.range (y2 - y).toNat).map fun i =>
    (List.range (x2 - x).toNat).map fun j => img.pix (y.toNat + i) (x.toNat + j)).flatten

/-- Line 90: `x = max(0, min(x, img_array.shape[1] - 1))`. -/
def clampX (img : PyImage) (reg : Region) : ℤ :=
  max 0 (min reg.x ((img.width : ℤ) - 1))

/-- Line 91: `y = max(0, min(y, img_array.shape[0] - 1))`. -/
def clampY (img : PyImage) (reg : Region) : ℤ :=
  max 0 (min reg.y ((img.height : ℤ) - 1))

/-- Line 92: `x2 = max(0, min(x + w, img_array.shape[1]))` — note `x` here is
the ALREADY-CLAMPED value reassigned on line 90, not the original `reg.x`. -/
def clampX2 (img : PyImage) (reg : Region) : ℤ :=
  max 0 (min (clampX img reg + reg.width) (img.width : ℤ))

/-- Line 93: `y2 = max(0, min(y + h, img_array.shape[0]))`, with `y` the
already-clamped value from line 91. -/
def clampY2 (img : PyImage) (reg : Region) : ℤ :=
  max 0 (min (clampY img reg + reg.height) (img.height : ℤ))

/-- Method `extract_region_color` (lines 75-103): clamp the region to the image
(the sequential reassignments of lines 90-93), return gray `(128,128,128)` on
an empty slice, else the truncated per-channel arithmetic mean of the slice. -/
def extract_region_color (img : PyImage) (reg : Region) : Color :=
  let x := clampX img reg
  let y := clampY img reg
  let x2 := clampX2 img reg
  let y2 := clampY2 img reg
  let ps := regionPixels img x y x2 y2
  if ps = [] then (128, 128, 128)
  else
    let n : ℚ := ps.length
    ( pyTrunc ((ps.map fun p => (p.1 : ℚ)).sum / n)
    , pyTrunc ((ps.map fun p => (p.2.1 : ℚ)).sum / n)
    , pyTrunc ((ps.map fun p => (p.2.2 : ℚ)).sum / n) )

/-- Method `color_distance_euclidean` (lines 105-107). -/
noncomputable def color_distance_euclidean (c1 c2 : Color) : ℝ :=
  Real.sqrt (((c1.1 - c2.1) ^ 2 + (c1.2.1 - c2.2.1) ^ 2 + (c1.2.2 - c2.2.2) ^ 2 : ℤ) : ℝ)

/-- Method `color_distance_manhattan` (lines 109-111). -/
noncomputable def color_distance_manhattan (c1 c2 : Color) : ℝ :=
  ((|c1.1 - c2.1| + |c1.2.1 - c2.2.1| + |c1.2.2 - c2.2.2| : ℤ) : ℝ)

/-- The inner `gamma` of `rgb_to_lab` (lines 119-120). -/
noncomputable def gammaCorrect (c : ℝ) : ℝ :=
  if c > 0.04045 then ((c + 0.055) / 1.055) ^ (2.4 : ℝ) else c / 12.92

/-- The inner `f` of `rgb_to_lab` (lines 133-134). -/
noncomputable def labF (t : ℝ) : ℝ :=
  if t > 0.008856 then t ^ ((1 : ℝ) / 3) else 7.787 * t + 16 / 116

/-- Method `rgb_to_lab` (lines 113-140): sRGB gamma decode, sRGB/D65 matrix to XYZ,
D65 white-point normalization, CIE f, Lab. -/
noncomputable def rgb_to_lab (rgb : Color) : ℝ × ℝ × ℝ :=
  let r := (rgb.1 : ℝ) / 255
  let g := (rgb.2.1 : ℝ) / 255
  let b := (rgb.2.2 : ℝ) / 255
  let r' := gammaCorrect r
  let g' := gammaCorrect g
  let b' := gammaCorrect b
  let x := r' * 0.4124564 + g' * 0.3575761 + b' * 0.1804375
  let y := r' * 0.2126729 + g' * 0.7151522 + b' * 0.0721750
  let z := r' * 0.0193339 + g' * 0.1191920 + b' * 0.9503041
  let xn := x / 0.95047
  let yn := y / 1.0
  let zn := z / 1.08883
  (116 * labF yn - 16, 500 * (labF xn - labF yn), 200 * (labF yn - labF zn))

/-- Method `color_distance_delta_e` (lines 142-146): CIE76 = Euclidean distance in Lab. -/
noncomputable def color_distance_delta_e (c1 c2 : Color) : ℝ :=
  let lab1 := rgb_to_lab c1
  let lab2 := rgb_to_lab c2
  Real.sqrt ((lab1.1 - lab2.1) ^ 2 + (lab1.2.1 - lab2.2.1) ^ 2 + (lab1.2.2 - lab2.2.2) ^ 2)

/-- One value of the `results` dict built by `analyze_color`. -/
structure DistRec where
  euclidean : ℝ
  manhattan : ℝ
  delta_e : ℝ
  reference_rgb : Color
  reference_name : String

/-- Method `analyze_color` (lines 148-170): one `DistRec` per reference color, in the
reference table's iteration (insertion) order. -/
noncomputable def analyze_color (cal : Option Calibration) (sample : Color) :
    List (String × DistRec) :=
  (get_reference_colors cal).map fun p =>
    (p.1,
      { euclidean := color_distance_euclidean sample p.2.rgb
      , manhattan := color_distance_manhattan sample p.2.rgb
      , delta_e := color_distance_delta_e sample p.2.rgb
      , reference_rgb := p.2.rgb
      , reference_name := p.2.name.getD p.1 })

/-- One step of the minimum-scan loop of `determine_status` (lines 177-180):
the accumulator is `(min_distance, best_status)` with `none` for the initial
`float('inf')` (every finite distance is below `inf`, so the first reference
always replaces it). -/
noncomputable def statusStep (acc : Option ℝ × String) (p : String × ℝ) : Option ℝ × String :=
  match acc with
  | (none, _) => (some p.2, p.1)
  | (some m, b) => if p.2 < m then (some p.2, p.1) else (some m, b)

/-- The whole loop of lines 174-180, starting from
`min_distance = float('inf')`, `best_status = 'expired'`. -/
noncomputable def statusFold (l : List (String × ℝ)) : Option ℝ × String :=
  l.foldl statusStep (none, "expired")

/-- Python `max` over a sequence of floats (raises on an empty sequence,
hence `Option`). -/
noncomputable def pyMax (l : List ℝ) : Option ℝ :=
  match l with
  | [] => none
  | v :: vs => some (vs.foldl max v)

/-- Python `round(x, 1)`. Python rounds the binary float half-to-even; over the
real-number idealization we use Mathlib `round` (the two agree except on
exact midpoints, which none of the proved statements depend on). -/
noncomputable def pyRound1 (x : ℝ) : ℝ :=
  ((round (x * 10) : ℤ) : ℝ) / 10

/-- Python `round(x, 2)`, same convention as `pyRound1`. -/
noncomputable def pyRound2 (x : ℝ) : ℝ :=
  ((round (x * 100) : ℤ) : ℝ) / 100

/-- The dict returned by `determine_status` (lines 189-196). -/
structure StatusResult where
  status : String
  confidence : ℝ
  distance : ℝ
  label : String
  color : String
  days_remaining : String

/-- The list of per-status metric values `(status, distances[metric])` that
lines 177-183 iterate over. -/
noncomputable def metricPairs (dr : List (String × DistRec)) (metric : DistRec → ℝ) :
    List (String × ℝ) :=
  dr.map fun r => (r.1, metric r.2)

/-- Method `determine_status` (lines 172-196). The two uncaught exceptions are
modelled as `Except.error` with Python's `str(e)` text: `max()` of an empty
values sequence (ValueError) and the `STATUS_LABELS[best_status]` KeyError. -/
noncomputable def determine_status (dr : List (String × DistRec)) (metric : DistRec → ℝ) :
    Except String StatusResult :=
  let pairs := metricPairs dr metric
  match statusFold pairs, pyMax (pairs.map Prod.snd) with
  | (some minD, best), some maxD =>
    let conf : ℝ := if maxD > 0 then 1 - minD / maxD else 1
    match lookupLabel best with
    | some lab =>
      .ok { status := best
          , confidence := pyRound1 (conf * 100)
          , distance := pyRound2 minD
          , label := lab.label
          , color := lab.color
          , days_remaining := toString lab.days_min ++ "-" ++ toString lab.days_max }
    | none => .error ("'" ++ best ++ "'")
  | _, _ => .error "max() arg is an empty sequence"

/-- The `best_status` variable of `determine_status` for the Delta E metric,
i.e. the classifier's chosen status key for a sample under a calibration. -/
noncomputable def chosen_status (cal : Option Calibration) (sample : Color) : String :=
  (statusFold (metricPairs (analyze_color cal sample) fun d => d.delta_e)).2

/-- Two-lowercase-hex-digit rendering of one channel, Python `'{:02x}'.format(c)`
for channel values in [0, 255]. -/
def hex2 (z : ℤ) : String :=
  let d : ℕ → Char := fun n => if n < 10 then Char.ofNat (48 + n) else Char.ofNat (87 + n)
  String.mk [d (z.toNat / 16 % 16), d (z.toNat % 16)]

/-- The format `'#{:02x}{:02x}{:02x}'.format(*sample_color)` (line 235). -/
def rgb_hex (c : Color) : String :=
  "#" ++ hex2 c.1 ++ hex2 c.2.1 ++ hex2 c.2.2

/-- The centered half-area default region of `analyze_image` (lines 209-218). -/
def default_region (img : PyImage) : Region :=
  { x := (img.width / 4 : ℕ)
  , y := (img.height / 4 : ℕ)
  , width := (img.width / 2 : ℕ)
  , height := (img.height / 2 : ℕ) }

/-- The success dict built by `analyze_image` (lines 230-254); `distances`
holds the three per-status metric values rounded to 2 decimals. -/
structure AnalysisOk where
  timestamp : String
  image_path : String
  sample_rgb : Color
  sample_hex : String
  region : Region
  status : String
  label : String
  confidence : ℝ
  days_remaining : String
  status_color : String
  distances : List (String × ℝ × ℝ × ℝ)
  calibration_used : Bool

/-- What `analyze_image` returns: the success dict, or the error dict
`{'error': ..., 'timestamp': ..., 'image_path': ...}` of lines 259-263. -/
inductive AnalyzeResult
  | ok (r : AnalysisOk)
  | err (error : String) (timestamp : String) (image_path : String)

/-- Method `analyze_image` (lines 198-263). `openImage` models `Image.open` plus RGB
conversion (`.error` = any decode exception); `now` models
`datetime.now().isoformat()`; the whole body is inside `try/except`, so every
internal exception becomes the error dict. -/
noncomputable def analyze_image (openImage : String → Except String PyImage)
    (image_path : String) (regionOpt : Option Region)
    (cal : Option Calibration) (now : String) : AnalyzeResult :=
  match openImage image_path with
  | .error e => .err e now image_path
  | .ok img =>
    let region := regionOpt.getD (default_region img)
    let sample := extract_region_color img region
    let dr := analyze_color cal sample
    match determine_status dr (fun d => d.delta_e) with
    | .error e => .err e now image_path
    | .ok sr =>
      .ok { timestamp := now
          , image_path := image_path
          , sample_rgb := sample
          , sample_hex := rgb_hex sample
          , region := region
          , status := sr.status
          , label := sr.label
          , confidence := sr.confidence
          , days_remaining := sr.days_remaining
          , status_color := sr.color
          , distances := dr.map fun p =>
              (p.1, (pyRound2 p.2.euclidean, pyRound2 p.2.manhattan, pyRound2 p.2.delta_e))
          , calibration_used := has_calibration cal }

/-- The claim's hypothesis "the region lies entirely outside the image
bounds": no pixel of the image is covered by the (unclamped) region
`[x, x+width) × [y, y+height)`. -/
def coversNoPixel (img : PyImage) (reg : Region) : Prop :=
  ∀ i < img.height, ∀ j < img.width,
    ¬(reg.x ≤ (j : ℤ) ∧ (j : ℤ) < reg.x + reg.width ∧
      reg.y ≤ (i : ℤ) ∧ (i : ℤ) < reg.y + reg.height)

instance (img : PyImage) (reg : Region) : Decidable (coversNoPixel img reg) := by
  unfold coversNoPixel
  infer_instance

/-- A 2×2 image, all pixels (10,20,30). -/
def imgC4 : PyImage :=
  { height := 2, width := 2, pix := fun _ _ => (10, 20, 30) }

/-- A 1×1 region entirely to the right of `imgC4`. -/
def regC4 : Region :=
  { x := 5, y := 0, width := 1, height := 1 }

/-- A calibration whose only reference key is not one of the four canonical
status keys. -/
def calC10 : Calibration :=
  { colors := some [("unknown", { rgb := (0, 0, 0) })] }

/-- A 1×1 image. -/
def imgC10 : PyImage :=
  { height := 1, width := 1, pix := fun _ _ => (5, 5, 5) }

/-! ### Helper lemmas about the minimum-scan fold, `pyMax` and rounding -/

/-- Running the strict-`<` minimum scan from an already-seen minimum `m`:
either no later value beats `m`, or the result is the first value that
beats every earlier one, i.e. the first minimum of the remaining list. -/
theorem statusFold_from_some {α : Type} (key : α → String) (val : α → ℝ) :
    ∀ (l : List α) (m : ℝ) (b : String),
      ((l.map fun a => (key a, val a)).foldl statusStep (some m, b) = (some m, b) ∧
        ∀ q ∈ l, m ≤ val q) ∨
      (∃ pre p post, l = pre ++ p :: post ∧
        (l.map fun a => (key a, val a)).foldl statusStep (some m, b) = (some (val p), key p) ∧
        val p < m ∧ (∀ q ∈ l, val p ≤ val q) ∧ ∀ q ∈ pre, val p < val q) := by
  intro l
  induction l with
  | nil => intro m b; exact Or.inl ⟨rfl, by simp⟩
  | cons a rest ih =>
    intro m b
    by_cases hc : val a < m
    · have hstep : statusStep (some m, b) (key a, val a) = (some (val a), key a) := by
        simp [statusStep, hc]
      rcases ih (val a) (key a) with ⟨heq, hall⟩ | ⟨pre, p, post, hl, heq, hlt, hmin, hpre⟩
      · refine Or.inr ⟨[], a, rest, rfl, ?_, hc, ?_, by simp⟩
        · simp only [List.map_cons, List.foldl_cons, hstep, heq]
        · intro q hq
          rcases List.mem_cons.mp hq with rfl | hq'
          · exact le_refl _
          · exact hall q hq'
      · refine Or.inr ⟨a :: pre, p, post, by rw [hl, List.cons_append], ?_, lt_trans hlt hc, ?_, ?_⟩
        · simp only [List.map_cons, List.foldl_cons, hstep, heq]
        · intro q hq
          rcases List.mem_cons.mp hq with rfl | hq'
          · exact le_of_lt hlt
          · exact hmin q hq'
        · intro q hq
          rcases List.mem_cons.mp hq with rfl | hq'
          · exact hlt
          · exact hpre q hq'
    · have hm : m ≤ val a := not_lt.mp hc
      have hstep : statusStep (some m, b) (key a, val a) = (some m, b) := by
        simp [statusStep, hc]
      rcases ih m b with ⟨heq, hall⟩ | ⟨pre, p, post, hl, heq, hlt, hmin, hpre⟩
      · refine Or.inl ⟨?_, ?_⟩
        · simp only [List.map_cons, List.foldl_cons, hstep, heq]
        · intro q hq
          rcases List.mem_cons.mp hq with rfl | hq'
          · exact hm
          · exact hall q hq'
      · refine Or.inr ⟨a :: pre, p, post, by rw [hl, List.cons_append], ?_, hlt, ?_, ?_⟩
        · simp only [List.map_cons, List.foldl_cons, hstep, heq]
        · intro q hq
          rcases List.mem_cons.mp hq with rfl | hq'
          · exact le_trans (le_of_lt hlt) hm
          · exact hmin q hq'
        · intro q hq
          rcases List.mem_cons.mp hq with rfl | hq'
          · exact lt_of_lt_of_le hlt hm
          · exact hpre q hq'

/-- On a nonempty keyed list, the minimum scan of `determine_status` returns
the value and key of the first element attaining the minimum value. -/
theorem statusFold_spec {α : Type} (key : α → String) (val : α → ℝ)
    (l : List α) (h : l ≠ []) :
    ∃ pre p post, l = pre ++ p :: post ∧
      statusFold (l.map fun a => (key a, val a)) = (some (val p), key p) ∧
      (∀ q ∈ l, val p ≤ val q) ∧ ∀ q ∈ pre, val p < val q := by
  match l, h with
  | a :: rest, _ =>
    have hstart : statusFold ((a :: rest).map fun a => (key a, val a)) =
        (rest.map fun a => (key a, val a)).foldl statusStep (some (val a), key a) := by
      simp [statusFold, statusStep]
    rcases statusFold_from_some key val rest (val a) (key a) with
      ⟨heq, hall⟩ | ⟨pre, p, post, hl, heq, hlt, hmin, hpre⟩
    · refine ⟨[], a, rest, rfl, by rw [hstart, heq], ?_, by simp⟩
      intro q hq
      rcases List.mem_cons.mp hq with rfl | hq'
      · exact le_refl _
      · exact hall q hq'
    · refine ⟨a :: pre, p, post, by rw [hl, List.cons_append], by rw [hstart, heq], ?_, ?_⟩
      · intro q hq
        rcases List.mem_cons.mp hq with rfl | hq'
        · exact le_of_lt hlt
        · exact hmin q hq'
      · intro q hq
        rcases List.mem_cons.mp hq with rfl | hq'
        · exact hlt
        · exact hpre q hq'

/-- The left fold of `max` is an element (or the seed) and bounds everything. -/
theorem foldl_max_spec : ∀ (l : List ℝ) (v : ℝ),
    (l.foldl max v = v ∨ l.foldl max v ∈ l) ∧
      v ≤ l.foldl max v ∧ ∀ w ∈ l, w ≤ l.foldl max v := by
  intro l
  induction l with
  | nil => intro v; exact ⟨Or.inl rfl, le_refl _, by simp⟩
  | cons x xs ih =>
    intro v
    obtain ⟨hmem, hle, hall⟩ := ih (max v x)
    simp only [List.foldl_cons]
    refine ⟨?_, le_trans (le_max_left v x) hle, ?_⟩
    · rcases hmem with he | he
      · rcases max_choice v x with hm | hm
        · exact Or.inl (by rw [he, hm])
        · exact Or.inr (by rw [he, hm]; exact List.mem_cons_self _ _)
      · exact Or.inr (List.mem_cons_of_mem _ he)
    · intro w hw
      rcases List.mem_cons.mp hw with rfl | hw'
      · exact le_trans (le_max_right v w) hle
      · exact hall w hw'

/-- Python `max` of a nonempty float sequence: an element, and an upper bound. -/
theorem pyMax_spec (l : List ℝ) (h : l ≠ []) :
    ∃ M, pyMax l = some M ∧ M ∈ l ∧ ∀ w ∈ l, w ≤ M := by
  match l, h with
  | v :: vs, _ =>
    obtain ⟨hmem, hle, hall⟩ := foldl_max_spec vs v
    refine ⟨vs.foldl max v, rfl, ?_, ?_⟩
    · rcases hmem with he | he
      · rw [he]; exact List.mem_cons_self _ _
      · exact List.mem_cons_of_mem _ he
    · intro w hw
      rcases List.mem_cons.mp hw with rfl | hw'
      · exact hle
      · exact hall w hw'

/-- The `(status, delta_e)` pairs scanned by `determine_status` are exactly the
active reference colors paired with their Delta E distance to the sample, in
table order. -/
theorem metricPairs_analyze (cal : Option Calibration) (sample : Color) :
    metricPairs (analyze_color cal sample) (fun d => d.delta_e) =
      (get_reference_colors cal).map fun a =>
        (a.1, color_distance_delta_e sample a.2.rgb) := by
  simp [metricPairs, analyze_color, List.map_map, Function.comp]

/-- Delta E is a square root, hence nonnegative. -/
theorem color_distance_delta_e_nonneg (c1 c2 : Color) : 0 ≤ color_distance_delta_e c1 c2 := by
  unfold color_distance_delta_e
  exact Real.sqrt_nonneg _

/-- Characterization of a successful `determine_status`: given the scan result,
the max, and a successful label lookup, the returned dict is exactly this. -/
theorem determine_status_ok_fields (dr : List (String × DistRec)) (metric : DistRec → ℝ)
    (minD : ℝ) (best : String) (maxD : ℝ) (lab : LabelData)
    (h1 : statusFold (metricPairs dr metric) = (some minD, best))
    (h2 : pyMax ((metricPairs dr metric).map Prod.snd) = some maxD)
    (h3 : lookupLabel best = some lab) :
    determine_status dr metric = .ok
      { status := best
      , confidence := pyRound1 ((if maxD > 0 then 1 - minD / maxD else 1) * 100)
      , distance := pyRound2 minD
      , label := lab.label
      , color := lab.color
      , days_remaining := toString lab.days_min ++ "-" ++ toString lab.days_max } := by
  simp [determine_status, h1, h2, h3]

/-- Characterization of the `STATUS_LABELS[best_status]` KeyError path of
`determine_status`. -/
theorem determine_status_key_error (dr : List (String × DistRec)) (metric : DistRec → ℝ)
    (minD : ℝ) (best : String) (maxD : ℝ)
    (h1 : statusFold (metricPairs dr metric) = (some minD, best))
    (h2 : pyMax ((metricPairs dr metric).map Prod.snd) = some maxD)
    (h3 : lookupLabel best = none) :
    determine_status dr metric = .error ("'" ++ best ++ "'") := by
  simp [determine_status, h1, h2, h3]

/-! ### C1: argmin over Delta E, first minimum wins -/

/-- C1: for every sample color and every non-empty active reference-color
mapping, the classifier's chosen status is the key of a reference whose Delta E
distance to the sample is minimal over the whole mapping, and that reference is
the first minimum in the mapping's iteration (insertion) order: every earlier
key has strictly larger Delta E. The status returned by a successful
`determine_status` is exactly this key. -/
theorem claim1_argmin_first_wins (cal : Option Calibration) (sample : Color)
    (h : get_reference_colors cal ≠ []) :
    ∃ pre p post, get_reference_colors cal = pre ++ p :: post ∧
      chosen_status cal sample = p.1 ∧
      (∀ q ∈ get_reference_colors cal,
        color_distance_delta_e sample p.2.rgb ≤ color_distance_delta_e sample q.2.rgb) ∧
      (∀ q ∈ pre,
        color_distance_delta_e sample p.2.rgb < color_distance_delta_e sample q.2.rgb) ∧
      (∀ r, determine_status (analyze_color cal sample) (fun d => d.delta_e) = .ok r →
        r.status = p.1) := by
  obtain ⟨pre, p, post, hl, hfold, hmin, hpre⟩ :=
    statusFold_spec (fun a => a.1) (fun a => color_distance_delta_e sample a.2.rgb)
      (get_reference_colors cal) h
  have hfold' : statusFold (metricPairs (analyze_color cal sample) fun d => d.delta_e) =
      (some (color_distance_delta_e sample p.2.rgb), p.1) := by
    rw [metricPairs_analyze]; exact hfold
  refine ⟨pre, p, post, hl, ?_, hmin, hpre, ?_⟩
  · unfold chosen_status
    rw [hfold']
  · intro r hr
    have hpairs_ne :
        (metricPairs (analyze_color cal sample) fun d => d.delta_e).map Prod.snd ≠ [] := by
      rw [metricPairs_analyze]
      simp only [ne_eq, List.map_eq_nil_iff]
      exact h
    obtain ⟨M, hM, _, _⟩ := pyMax_spec _ hpairs_ne
    rcases hlab : lookupLabel p.1 with _ | lab
    · rw [determine_status_key_error _ _ _ _ _ hfold' hM hlab] at hr
      exact absurd hr (by simp)
    · rw [determine_status_ok_fields _ _ _ _ _ _ hfold' hM hlab] at hr
      cases hr
      rfl

/-- C1 witness: the default table is nonempty, and the argmin/tie-break
property holds for it at sample (0,0,0). -/
theorem claim1_witness :
    get_reference_colors none ≠ [] ∧
    (∃ pre p post, get_reference_colors none = pre ++ p :: post ∧
      chosen_status none (0, 0, 0) = p.1 ∧
      (∀ q ∈ get_reference_colors none,
        color_distance_delta_e (0, 0, 0) p.2.rgb ≤ color_distance_delta_e (0, 0, 0) q.2.rgb) ∧
      (∀ q ∈ pre,
        color_distance_delta_e (0, 0, 0) p.2.rgb < color_distance_delta_e (0, 0, 0) q.2.rgb) ∧
      (∀ r, determine_status (analyze_color none (0, 0, 0)) (fun d => d.delta_e) = .ok r →
        r.status = p.1)) :=
  ⟨by decide, claim1_argmin_first_wins none (0, 0, 0) (by decide)⟩

/-! ### C2: the confidence formula and its range -/

/-- Rounding `round(x, 1)` stays inside `[0, 100]` whenever its argument does. -/
theorem pyRound1_mem_Icc {x : ℝ} (h0 : 0 ≤ x) (h100 : x ≤ 100) :
    0 ≤ pyRound1 x ∧ pyRound1 x ≤ 100 := by
  unfold pyRound1
  have h1 : (0 : ℤ) ≤ round (x * 10) := by
    rw [round_eq]
    exact Int.le_floor.mpr (by push_cast; linarith)
  have h2 : round (x * 10) ≤ 1000 := by
    rw [round_eq]
    have : (⌊x * 10 + 1 / 2⌋ : ℤ) < 1001 := Int.floor_lt.mpr (by push_cast; linarith)
    omega
  constructor
  · positivity
  · rw [div_le_iff₀ (by norm_num : (0 : ℝ) < 10)]
    calc ((round (x * 10) : ℤ) : ℝ) ≤ ((1000 : ℤ) : ℝ) := by exact_mod_cast h2
    _ = 100 * 10 := by norm_num

/-- C2: for every sample color and every non-empty active reference-color
mapping, the minimum and maximum Delta E of the scan exist, `0 ≤ min ≤ max`,
and the confidence returned by a successful `determine_status` equals
`round((1 - min/max) * 100, 1)` when `max > 0`, equals `100.0` when `max = 0`,
and always lies in `[0, 100]`. -/
theorem claim2_confidence (cal : Option Calibration) (sample : Color)
    (h : get_reference_colors cal ≠ []) :
    ∃ m M : ℝ,
      (statusFold (metricPairs (analyze_color cal sample) fun d => d.delta_e)).1 = some m ∧
      pyMax ((metricPairs (analyze_color cal sample) fun d => d.delta_e).map Prod.snd) =
        some M ∧
      0 ≤ m ∧ m ≤ M ∧
      ∀ r, determine_status (analyze_color cal sample) (fun d => d.delta_e) = .ok r →
        (0 < M → r.confidence = pyRound1 ((1 - m / M) * 100)) ∧
        (M = 0 → r.confidence = 100) ∧
        0 ≤ r.confidence ∧ r.confidence ≤ 100 := by
  obtain ⟨pre, p, post, hl, hfold, hmin, hpre⟩ :=
    statusFold_spec (fun a => a.1) (fun a => color_distance_delta_e sample a.2.rgb)
      (get_reference_colors cal) h
  set m := color_distance_delta_e sample p.2.rgb with hm_def
  have hfold' : statusFold (metricPairs (analyze_color cal sample) fun d => d.delta_e) =
      (some m, p.1) := by
    rw [metricPairs_analyze]; exact hfold
  have hvals :
      (metricPairs (analyze_color cal sample) fun d => d.delta_e).map Prod.snd =
        (get_reference_colors cal).map fun a => color_distance_delta_e sample a.2.rgb := by
    rw [metricPairs_analyze, List.map_map]
    rfl
  have hvals_ne :
      (metricPairs (analyze_color cal sample) fun d => d.delta_e).map Prod.snd ≠ [] := by
    rw [hvals]
    simp only [ne_eq, List.map_eq_nil_iff]
    exact h
  obtain ⟨M, hM, hMmem, hMub⟩ := pyMax_spec _ hvals_ne
  have hMval : ∃ q ∈ get_reference_colors cal, M = color_distance_delta_e sample q.2.rgb := by
    rw [hvals] at hMmem
    obtain ⟨q, hq, hq'⟩ := List.mem_map.mp hMmem
    exact ⟨q, hq, hq'.symm⟩
  have hm_nonneg : 0 ≤ m := color_distance_delta_e_nonneg _ _
  have hmM : m ≤ M := by
    obtain ⟨q, hq, rfl⟩ := hMval
    exact hmin q hq
  have hM_nonneg : 0 ≤ M := le_trans hm_nonneg hmM
  refine ⟨m, M, by rw [hfold'], hM, hm_nonneg, hmM, ?_⟩
  intro r hr
  rcases hlab : lookupLabel p.1 with _ | lab
  · rw [determine_status_key_error _ _ _ _ _ hfold' hM hlab] at hr
    exact absurd hr (by simp)
  · rw [determine_status_ok_fields _ _ _ _ _ _ hfold' hM hlab] at hr
    have hrec := Except.ok.inj hr
    subst hrec
    have hround100 : pyRound1 ((1 : ℝ) * 100) = 100 := by
      unfold pyRound1
      rw [one_mul, show (100 : ℝ) * 10 = ((1000 : ℤ) : ℝ) by norm_num, round_intCast]
      norm_num
    refine ⟨?_, ?_, ?_⟩
    · intro hMpos
      simp only [gt_iff_lt, if_pos hMpos]
    · intro hM0
      simp only [gt_iff_lt, hM0, lt_irrefl, if_false]
      exact hround100
    · rcases eq_or_lt_of_le hM_nonneg with hM0 | hMpos
      · simp only [gt_iff_lt, ← hM0, lt_irrefl, if_false]
        rw [hround100]
        norm_num
      · simp only [gt_iff_lt, if_pos hMpos]
        have hdiv_le : m / M ≤ 1 := (div_le_one hMpos).mpr hmM
        have hdiv_nonneg : 0 ≤ m / M := div_nonneg hm_nonneg (le_of_lt hMpos)
        have h0 : 0 ≤ (1 - m / M) * 100 := by nlinarith
        have h100 : (1 - m / M) * 100 ≤ 100 := by nlinarith
        obtain ⟨hb1, hb2⟩ := pyRound1_mem_Icc h0 h100
        exact ⟨hb1, hb2⟩

/-- C2 witness: the default table is nonempty, and the confidence facts hold
for it at sample (0,0,0). -/
theorem claim2_witness :
    get_reference_colors none ≠ [] ∧
    (∃ m M : ℝ,
      (statusFold (metricPairs (analyze_color none (0, 0, 0)) fun d => d.delta_e)).1 =
        some m ∧
      pyMax ((metricPairs (analyze_color none (0, 0, 0)) fun d => d.delta_e).map Prod.snd) =
        some M ∧
      0 ≤ m ∧ m ≤ M ∧
      ∀ r, determine_status (analyze_color none (0, 0, 0)) (fun d => d.delta_e) = .ok r →
        (0 < M → r.confidence = pyRound1 ((1 - m / M) * 100)) ∧
        (M = 0 → r.confidence = 100) ∧
        0 ≤ r.confidence ∧ r.confidence ≤ 100) :=
  ⟨by decide, claim2_confidence none (0, 0, 0) (by decide)⟩

/-! ### C3: what load/save failures do to the in-memory calibration -/

/-- C3 counterexample: the claim "a failed load (missing file or malformed
JSON) leaves the in-memory active calibration equal to what it was before the
call" is false: with a default calibration in memory and a malformed file,
`load_calibration` fails and resets the in-memory calibration to `None`
(line 51 `self.calibration = None`), which differs from the prior value. -/
theorem claim3_counterexample :
    (load_calibration
      { fileContent := .malformed
      , calibration := some { colors := some DEFAULT_COLORS } }).1 = false ∧
    (load_calibration
      { fileContent := .malformed
      , calibration := some { colors := some DEFAULT_COLORS } }).2.calibration ≠
      some { colors := some DEFAULT_COLORS } := by
  constructor
  · rfl
  · simp [load_calibration]

/-- C3 amended: a failed load due to a missing file leaves the in-memory
calibration unchanged and reports failure; a failed load due to malformed JSON
reports failure but resets the in-memory calibration to absent; a failed save
reports failure and leaves the in-memory calibration unchanged; a successful
save replaces the in-memory calibration with the saved value (so save updates
it only when it reports success). -/
theorem claim3_amended (f : FileContent) (c : Option Calibration) (d : Calibration) :
    load_calibration { fileContent := .missing, calibration := c } =
      (false, { fileContent := .missing, calibration := c }) ∧
    load_calibration { fileContent := .malformed, calibration := c } =
      (false, { fileContent := .malformed, calibration := none }) ∧
    save_calibration false d { fileContent := f, calibration := c } =
      (false, { fileContent := f, calibration := c }) ∧
    save_calibration true d { fileContent := f, calibration := c } =
      (true, { fileContent := .valid d, calibration := some d }) := by
  refine ⟨rfl, rfl, ?_, ?_⟩ <;> simp [save_calibration]

/-! ### C6: the key set used for distances is the active calibration's -/

/-- C6: the key set of the per-status distance table equals the key set of
the active reference colors; those are the calibration's `colors` mapping when
a loaded calibration has one, and the built-in default 4-entry table when no
calibration is loaded or it has no `colors` key; and after loading a malformed
file, the load reports failure, `has_calibration` is false, and the active
reference colors are the default table. -/
theorem claim6_status_key_invariant :
    (∀ (cal : Option Calibration) (sample : Color),
      (analyze_color cal sample).map Prod.fst =
        (get_reference_colors cal).map Prod.fst) ∧
    (∀ (cols : RefColors) (nm cr ty nt : Option String),
      get_reference_colors (some
        { colors := some cols, name := nm, created := cr, sensor_type := ty, notes := nt }) =
        cols) ∧
    (∀ (nm cr ty nt : Option String),
      get_reference_colors (some
        { colors := none, name := nm, created := cr, sensor_type := ty, notes := nt }) =
        DEFAULT_COLORS) ∧
    get_reference_colors none = DEFAULT_COLORS ∧
    (∀ c : Option Calibration,
      (load_calibration { fileContent := .malformed, calibration := c }).1 = false ∧
      has_calibration
        (load_calibration { fileContent := .malformed, calibration := c }).2.calibration =
        false ∧
      get_reference_colors
        (load_calibration { fileContent := .malformed, calibration := c }).2.calibration =
        DEFAULT_COLORS) := by
  refine ⟨?_, ?_, ?_, rfl, ?_⟩
  · intro cal sample
    simp [analyze_color]
  · intro cols nm cr ty nt
    rfl
  · intro nm cr ty nt
    rfl
  · intro c
    exact ⟨rfl, rfl, rfl⟩

/-! ### C8: save/load round-trip preserves the colors mapping -/

/-- C8: saving a calibration (with the write succeeding) and then loading
yields success and a calibration whose `colors` mapping is identical to the
saved one (in this model of `json.dump`/`json.load`, the whole value is
preserved). -/
theorem claim8_save_load_roundtrip (st : AnalyzerState) (cal : Calibration) :
    (save_calibration true cal st).1 = true ∧
    (load_calibration (save_calibration true cal st).2).1 = true ∧
    ∃ c, (load_calibration (save_calibration true cal st).2).2.calibration = some c ∧
      c.colors = cal.colors := by
  refine ⟨by simp [save_calibration], by simp [save_calibration, load_calibration], ?_⟩
  exact ⟨cal, by simp [save_calibration, load_calibration], rfl⟩

/-! ### C4 and C7: `extract_region_color` geometry -/

/-- C4 counterexample: the region `{x:5, y:0, width:1, height:1}` covers no
pixel of the 2×2 image, yet `extract_region_color` does not return the gray
fallback: the clamp `x = min(x, width-1)` pulls the region back onto the last
column, so the mean of that column, (10,20,30), is returned instead. -/
theorem claim4_counterexample :
    coversNoPixel imgC4 regC4 ∧ extract_region_color imgC4 regC4 ≠ (128, 128, 128) := by
  constructor
  · decide
  · have hps : regionPixels imgC4 (clampX imgC4 regC4) (clampY imgC4 regC4)
        (clampX2 imgC4 regC4) (clampY2 imgC4 regC4) = [(10, 20, 30)] := by
      decide
    simp only [extract_region_color, hps]
    norm_num [pyTrunc]

/-- If the clamped horizontal slice is empty, the slice has no pixels. -/
theorem regionPixels_eq_nil_of_x (img : PyImage) (X Y X2 Y2 : ℤ)
    (h : (X2 - X).toNat = 0) : regionPixels img X Y X2 Y2 = [] := by
  unfold regionPixels
  rw [h]
  simp

/-- If the clamped vertical slice is empty, the slice has no pixels. -/
theorem regionPixels_eq_nil_of_y (img : PyImage) (X Y X2 Y2 : ℤ)
    (h : (Y2 - Y).toNat = 0) : regionPixels img X Y X2 Y2 = [] := by
  unfold regionPixels
  rw [h]
  simp

/-- C4 amended: a degenerate region — `width ≤ 0` or `height ≤ 0` — yields the
fixed fallback color (128,128,128): because lines 92-93 compute `x2`/`y2` from
the ALREADY-CLAMPED `x`/`y` of lines 90-91, the slice `[x, x2) × [y, y2)` is
empty exactly when the width or height is nonpositive (for images with at
least one pixel), while a region entirely outside the bounds with positive
width and height is pulled onto the nearest edge rows/columns and their mean
is returned instead (see `claim4_counterexample`). -/
theorem claim4_amended (img : PyImage) (reg : Region)
    (h : reg.width ≤ 0 ∨ reg.height ≤ 0) :
    extract_region_color img reg = (128, 128, 128) := by
  have hps : regionPixels img (clampX img reg) (clampY img reg)
      (clampX2 img reg) (clampY2 img reg) = [] := by
    rcases h with h1 | h1
    · refine regionPixels_eq_nil_of_x _ _ _ _ _ ?_
      unfold clampX2 clampX
      omega
    · refine regionPixels_eq_nil_of_y _ _ _ _ _ ?_
      unfold clampY2 clampY
      omega
  simp only [extract_region_color, hps]
  simp

/-- C4 witness for the amended claim: the degenerate region
`{x:0, y:0, width:0, height:0}` on a 2×2 image samples the gray fallback. -/
theorem claim4_witness :
    (({ x := 0, y := 0, width := 0, height := 0 } : Region).width ≤ 0 ∨
      ({ x := 0, y := 0, width := 0, height := 0 } : Region).height ≤ 0) ∧
    extract_region_color imgC4 { x := 0, y := 0, width := 0, height := 0 } =
      (128, 128, 128) :=
  ⟨Or.inl le_rfl,
    claim4_amended imgC4 { x := 0, y := 0, width := 0, height := 0 } (Or.inl le_rfl)⟩

/-- Every pixel of the clamped slice comes from inside the image, so on a
uniform image every slice pixel is the uniform color. -/
theorem regionPixels_all_eq (img : PyImage) (C : Color) (X Y X2 Y2 : ℤ)
    (h0Y : 0 ≤ Y) (h0X : 0 ≤ X)
    (hX2 : X2 ≤ (img.width : ℤ)) (hY2 : Y2 ≤ (img.height : ℤ))
    (huni : ∀ i j, i < img.height → j < img.width → img.pix i j = C) :
    ∀ p ∈ regionPixels img X Y X2 Y2, p = C := by
  intro p hp
  unfold regionPixels at hp
  rw [List.mem_flatten] at hp
  obtain ⟨l, hl, hpl⟩ := hp
  obtain ⟨i, hi, rfl⟩ := List.mem_map.mp hl
  obtain ⟨j, hj, rfl⟩ := List.mem_map.mp hpl
  rw [List.mem_range] at hi hj
  apply huni
  · omega
  · omega

/-- A slice with a nonempty clamped rectangle has at least one pixel. -/
theorem regionPixels_ne_nil (img : PyImage) (X Y X2 Y2 : ℤ)
    (hX : X < X2) (hY : Y < Y2) :
    regionPixels img X Y X2 Y2 ≠ [] := by
  unfold regionPixels
  intro hcon
  rw [List.flatten_eq_nil_iff] at hcon
  have hmem : (List.range (X2 - X).toNat).map
      (fun j => img.pix (Y.toNat + 0) (X.toNat + j)) ∈
      (List.range (Y2 - Y).toNat).map fun i =>
        (List.range (X2 - X).toNat).map fun j => img.pix (Y.toNat + i) (X.toNat + j) :=
    List.mem_map.mpr ⟨0, List.mem_range.mpr (by omega), rfl⟩
  have hrow := hcon _ hmem
  rw [List.map_eq_nil_iff, List.range_eq_nil] at hrow
  omega

/-- Truncation `int()` of an integer-valued rational is that integer. -/
theorem pyTrunc_intCast (z : ℤ) : pyTrunc (z : ℚ) = z := by
  unfold pyTrunc
  split <;> simp

/-- The per-channel mean of a list of identical colors is that color's
channel, exactly. -/
theorem mean_of_const (ps : List Color) (c : ℤ) (f : Color → ℤ)
    (hne : ps ≠ []) (hall : ∀ p ∈ ps, f p = c) :
    pyTrunc ((ps.map fun p => ((f p : ℤ) : ℚ)).sum / (ps.length : ℚ)) = c := by
  have hrep : (ps.map fun p => ((f p : ℤ) : ℚ)) =
      List.replicate ps.length ((c : ℤ) : ℚ) := by
    rw [List.eq_replicate_iff]
    refine ⟨by simp, ?_⟩
    intro b hb
    obtain ⟨p, hp, rfl⟩ := List.mem_map.mp hb
    rw [hall p hp]
  have hlen : (ps.length : ℚ) ≠ 0 := by
    have : ps.length ≠ 0 := fun h0 => hne (List.length_eq_zero.mp h0)
    exact_mod_cast this
  rw [hrep, List.sum_replicate, nsmul_eq_mul, mul_div_cancel_left₀ _ hlen, pyTrunc_intCast]

/-- C7: on a uniform image of color C, any region that covers at least one
image pixel samples exactly C — the truncated per-channel mean of identical
pixels is the pixel value itself. -/
theorem claim7_uniform_image (img : PyImage) (C : Color) (reg : Region)
    (huni : ∀ i j, i < img.height → j < img.width → img.pix i j = C)
    (hover : ∃ i j : ℕ, i < img.height ∧ j < img.width ∧
      reg.x ≤ (j : ℤ) ∧ (j : ℤ) < reg.x + reg.width ∧
      reg.y ≤ (i : ℤ) ∧ (i : ℤ) < reg.y + reg.height) :
    extract_region_color img reg = C := by
  obtain ⟨i0, j0, hi0, hj0, hrx, hrw, hry, hrh⟩ := hover
  have hXlt : clampX img reg < clampX2 img reg := by
    unfold clampX2 clampX
    omega
  have hYlt : clampY img reg < clampY2 img reg := by
    unfold clampY2 clampY
    omega
  have hne := regionPixels_ne_nil img _ _ _ _ hXlt hYlt
  have hall := regionPixels_all_eq img C (clampX img reg) (clampY img reg)
    (clampX2 img reg) (clampY2 img reg)
    (by unfold clampY; omega) (by unfold clampX; omega)
    (by unfold clampX2; omega) (by unfold clampY2; omega) huni
  simp only [extract_region_color, if_neg hne]
  have h1 := mean_of_const _ C.1 (fun p => p.1) hne fun p hp => by rw [hall p hp]
  have h2 := mean_of_const _ C.2.1 (fun p => p.2.1) hne fun p hp => by rw [hall p hp]
  have h3 := mean_of_const _ C.2.2 (fun p => p.2.2) hne fun p hp => by rw [hall p hp]
  rw [h1, h2, h3]

/-- C7 witness: a 2×2 uniform image of color (7,8,9) with the full region
samples (7,8,9). -/
theorem claim7_witness :
    (∀ i j, i < 2 → j < 2 →
      ({ height := 2, width := 2, pix := fun _ _ => (7, 8, 9) } : PyImage).pix i j =
        ((7, 8, 9) : Color)) ∧
    (∃ i j : ℕ, i < 2 ∧ j < 2 ∧
      (0 : ℤ) ≤ (j : ℤ) ∧ (j : ℤ) < 0 + 2 ∧ (0 : ℤ) ≤ (i : ℤ) ∧ (i : ℤ) < 0 + 2) ∧
    extract_region_color { height := 2, width := 2, pix := fun _ _ => (7, 8, 9) }
      { x := 0, y := 0, width := 2, height := 2 } = (7, 8, 9) :=
  ⟨fun _ _ _ _ => rfl, ⟨0, 0, by norm_num⟩,
    claim7_uniform_image { height := 2, width := 2, pix := fun _ _ => (7, 8, 9) }
      (7, 8, 9) { x := 0, y := 0, width := 2, height := 2 }
      (fun _ _ _ _ => rfl) ⟨0, 0, by norm_num⟩⟩

/-! ### C5: analyze never raises past its boundary -/

/-- C5: for every image path, region argument (present or absent), calibration
and clock, `analyze_image` returns exactly one of: the structured error result
carrying the decode error message, timestamp and path; the structured error
result for an internal failure of `determine_status` (also with timestamp and
path); or the complete success result with sample color (RGB and hex), the
region actually used, the per-status distance table rounded to 2 decimals,
the chosen status metadata, confidence, timestamp, path and calibration flag.
It is a total function: no other outcome exists. -/
theorem claim5_analyze_boundary (openImage : String → Except String PyImage)
    (path : String) (regionOpt : Option Region) (cal : Option Calibration) (now : String) :
    (∃ e, openImage path = .error e ∧
      analyze_image openImage path regionOpt cal now = .err e now path) ∨
    (∃ img e, openImage path = .ok img ∧
      determine_status (analyze_color cal
          (extract_region_color img (regionOpt.getD (default_region img))))
        (fun d => d.delta_e) = .error e ∧
      analyze_image openImage path regionOpt cal now = .err e now path) ∨
    (∃ img sr, openImage path = .ok img ∧
      determine_status (analyze_color cal
          (extract_region_color img (regionOpt.getD (default_region img))))
        (fun d => d.delta_e) = .ok sr ∧
      analyze_image openImage path regionOpt cal now = .ok
        { timestamp := now
        , image_path := path
        , sample_rgb := extract_region_color img (regionOpt.getD (default_region img))
        , sample_hex := rgb_hex (extract_region_color img (regionOpt.getD (default_region img)))
        , region := regionOpt.getD (default_region img)
        , status := sr.status
        , label := sr.label
        , confidence := sr.confidence
        , days_remaining := sr.days_remaining
        , status_color := sr.color
        , distances := (analyze_color cal
            (extract_region_color img (regionOpt.getD (default_region img)))).map fun p =>
              (p.1, (pyRound2 p.2.euclidean, pyRound2 p.2.manhattan, pyRound2 p.2.delta_e))
        , calibration_used := has_calibration cal }) := by
  rcases himg : openImage path with e | img
  · exact Or.inl ⟨e, rfl, by simp [analyze_image, himg]⟩
  · rcases hds : determine_status (analyze_color cal
        (extract_region_color img (regionOpt.getD (default_region img))))
        (fun d => d.delta_e) with e | sr
    · exact Or.inr (Or.inl ⟨img, e, rfl, hds, by simp [analyze_image, himg, hds]⟩)
    · exact Or.inr (Or.inr ⟨img, sr, rfl, hds, by simp [analyze_image, himg, hds]⟩)

/-! ### C10: non-canonical winning key makes analyze return the error result -/

/-- C10: when the active reference colors are non-empty but the Delta-E
minimizing key (the classifier's chosen status) is not a `STATUS_LABELS` key,
`analyze_image` returns the structured error result (the KeyError raised by
the label lookup is caught at the analyze boundary) — never a classification
result with an undefined label. -/
theorem claim10_unknown_key_error (img : PyImage) (path : String)
    (regionOpt : Option Region) (cal : Option Calibration) (now : String)
    (h : get_reference_colors cal ≠ [])
    (hkey : lookupLabel (chosen_status cal
      (extract_region_color img (regionOpt.getD (default_region img)))) = none) :
    analyze_image (fun _ => .ok img) path regionOpt cal now =
      .err ("'" ++ chosen_status cal
        (extract_region_color img (regionOpt.getD (default_region img))) ++ "'")
        now path := by
  set sample := extract_region_color img (regionOpt.getD (default_region img)) with hsample
  obtain ⟨pre, p, post, hl, hfold, hmin, hpre⟩ :=
    statusFold_spec (fun a => a.1) (fun a => color_distance_delta_e sample a.2.rgb)
      (get_reference_colors cal) h
  have hfold' : statusFold (metricPairs (analyze_color cal sample) fun d => d.delta_e) =
      (some (color_distance_delta_e sample p.2.rgb), p.1) := by
    rw [metricPairs_analyze]; exact hfold
  have hchosen : chosen_status cal sample = p.1 := by
    unfold chosen_status
    rw [hfold']
  have hpairs_ne :
      (metricPairs (analyze_color cal sample) fun d => d.delta_e).map Prod.snd ≠ [] := by
    rw [metricPairs_analyze]
    simp only [ne_eq, List.map_eq_nil_iff]
    exact h
  obtain ⟨M, hM, _, _⟩ := pyMax_spec _ hpairs_ne
  have herr := determine_status_key_error _ _ _ _ _ hfold' hM (by rw [← hchosen]; exact hkey)
  simp [analyze_image, ← hsample, herr, hchosen]

/-- C10 witness: analyzing under `calC10` returns the error result whose
message is the KeyError text for the non-canonical winning key. -/
theorem claim10_witness :
    get_reference_colors (some calC10) ≠ [] ∧
    lookupLabel (chosen_status (some calC10)
      (extract_region_color imgC10 ((none : Option Region).getD (default_region imgC10)))) =
      none ∧
    analyze_image (fun _ => .ok imgC10) "sensor.jpg" none (some calC10) "2026-01-01" =
      .err ("'" ++ chosen_status (some calC10)
        (extract_region_color imgC10 ((none : Option Region).getD (default_region imgC10))) ++
        "'") "2026-01-01" "sensor.jpg" :=
  ⟨by decide, by decide,
    claim10_unknown_key_error imgC10 "sensor.jpg" none (some calC10) "2026-01-01"
      (by decide) (by decide)⟩

/-! ### C9: Lab anchor points under the exact sRGB/D65 constants -/

/-- Gamma decoding of a full channel: `((1+0.055)/1.055)^2.4 = 1`. -/
theorem gammaCorrect_full : gammaCorrect (((255 : ℤ) : ℝ) / 255) = 1 := by
  have h : (((255 : ℤ) : ℝ)) / 255 = 1 := by norm_num
  rw [h]
  unfold gammaCorrect
  rw [if_pos (by norm_num : (1 : ℝ) > 0.04045)]
  rw [show ((1 : ℝ) + 0.055) / 1.055 = 1 by norm_num, Real.one_rpow]

/-- The value `f(1) = 1^(1/3) = 1`. -/
theorem labF_one : labF 1 = 1 := by
  unfold labF
  rw [if_pos (by norm_num : (1 : ℝ) > 0.008856), Real.one_rpow]

/-- The normalized Y of pure white is `1.0000001` (the matrix row sums to
`1.0000001`, not exactly 1); its cube root is at least 1 ... -/
theorem labF_white_y_ge : 1 ≤ labF ((10000001 : ℝ) / 10000000) := by
  unfold labF
  rw [if_pos (by norm_num : (10000001 : ℝ) / 10000000 > 0.008856)]
  calc (1 : ℝ) = (1 : ℝ) ^ ((1 : ℝ) / 3) := (Real.one_rpow _).symm
  _ ≤ ((10000001 : ℝ) / 10000000) ^ ((1 : ℝ) / 3) :=
      Real.rpow_le_rpow (by norm_num) (by norm_num) (by norm_num)

/-- ... and at most `1.0000001` itself. -/
theorem labF_white_y_le : labF ((10000001 : ℝ) / 10000000) ≤ (10000001 : ℝ) / 10000000 := by
  unfold labF
  rw [if_pos (by norm_num : (10000001 : ℝ) / 10000000 > 0.008856)]
  calc ((10000001 : ℝ) / 10000000) ^ ((1 : ℝ) / 3) ≤
      ((10000001 : ℝ) / 10000000) ^ (1 : ℝ) :=
        Real.rpow_le_rpow_of_exponent_le (by norm_num) (by norm_num)
  _ = (10000001 : ℝ) / 10000000 := Real.rpow_one _

/-- Black maps exactly to Lab (0,0,0): every channel gamma-decodes to 0, the
XYZ are 0, and `L = 116·(16/116) − 16 = 0`. -/
theorem rgb_to_lab_black : rgb_to_lab (0, 0, 0) = (0, 0, 0) := by
  simp only [rgb_to_lab, gammaCorrect, labF]
  norm_num

/-- White reduces to the cube root of the Y-row sum `1.0000001`. -/
theorem rgb_to_lab_white : rgb_to_lab (255, 255, 255) =
    (116 * labF ((10000001 : ℝ) / 10000000) - 16,
     500 * (labF 1 - labF ((10000001 : ℝ) / 10000000)),
     200 * (labF ((10000001 : ℝ) / 10000000) - labF 1)) := by
  simp only [rgb_to_lab, gammaCorrect_full]
  norm_num

/-- C9: under the exact sRGB/D65 constants of the code (gamma threshold
0.04045, divisor 12.92, exponent 2.4, f-threshold 0.008856, white point
Xn=0.95047, Yn=1.0, Zn=1.08883), `rgb_to_lab([0,0,0])` is approximately
`[0,0,0]` and `rgb_to_lab([255,255,255])` is approximately `[100,0,0]`, each
component within 1/1000. -/
theorem claim9_lab_anchor_points :
    (|(rgb_to_lab (0, 0, 0)).1| ≤ 1 / 1000 ∧
     |(rgb_to_lab (0, 0, 0)).2.1| ≤ 1 / 1000 ∧
     |(rgb_to_lab (0, 0, 0)).2.2| ≤ 1 / 1000) ∧
    (|(rgb_to_lab (255, 255, 255)).1 - 100| ≤ 1 / 1000 ∧
     |(rgb_to_lab (255, 255, 255)).2.1| ≤ 1 / 1000 ∧
     |(rgb_to_lab (255, 255, 255)).2.2| ≤ 1 / 1000) := by
  have hge := labF_white_y_ge
  have hle := labF_white_y_le
  refine ⟨?_, ?_⟩
  · rw [rgb_to_lab_black]
    norm_num
  · rw [rgb_to_lab_white, labF_one]
    refine ⟨?_, ?_, ?_⟩
    · simp only []
      rw [abs_le]
      constructor <;> nlinarith
    · simp only []
      rw [abs_le]
      constructor <;> nlinarith
    · simp only []
      rw [abs_le]
      constructor <;> nlinarith

end TTI
